import Mathlib

/-!
Verification of the Graphene time-lock escrow module
(libraries/chain/time_lock_evaluator.cpp together with the operation and
object headers).  The chain database is embedded shallowly as a record of
association-list stores; each evaluator's FC_ASSERT chain becomes an
Except-valued validation function and each do_apply becomes an explicit
state transformer.  Thrown object-id lookups become NotFound errors.
-/

/-! ## Association-list store primitives

The surrounding Graphene database stores objects in id-indexed indices.
We model each index as an association list; lookup returns the first
binding, updates rewrite the first binding, matching the unique-id index
semantics of the source.
-/

/-- Lookup of the first binding of key i in an association list. -/
def lookupAssoc {κ α : Type} [DecidableEq κ] (l : List (κ × α)) (i : κ) : Option α :=
  match l with
  | [] => none
  | e :: rest => if e.1 = i then some e.2 else lookupAssoc rest i

/-- Apply f to the first binding of key i, leaving all other bindings alone. -/
def modifyAssoc {κ α : Type} [DecidableEq κ] (l : List (κ × α)) (i : κ) (f : α → α) :
    List (κ × α) :=
  match l with
  | [] => []
  | e :: rest => if e.1 = i then (e.1, f e.2) :: rest else e :: modifyAssoc rest i f

/-- Remove the first binding of key i. -/
def removeAssoc {κ α : Type} [DecidableEq κ] (l : List (κ × α)) (i : κ) : List (κ × α) :=
  match l with
  | [] => []
  | e :: rest => if e.1 = i then rest else e :: removeAssoc rest i

/-- Add d to the value bound to key i, or append a fresh binding with value d.
This models database::adjust_balance on the ledger's account-balance index. -/
def adjustAssoc {κ : Type} [DecidableEq κ] (l : List (κ × Int)) (i : κ) (d : Int) :
    List (κ × Int) :=
  match l with
  | [] => [(i, d)]
  | e :: rest => if e.1 = i then (e.1, e.2 + d) :: rest else e :: adjustAssoc rest i d

theorem lookupAssoc_nil {κ α : Type} [DecidableEq κ] (i : κ) :
    lookupAssoc ([] : List (κ × α)) i = none := rfl

theorem lookupAssoc_cons {κ α : Type} [DecidableEq κ] (e : κ × α) (l : List (κ × α)) (i : κ) :
    lookupAssoc (e :: l) i = if e.1 = i then some e.2 else lookupAssoc l i := rfl

theorem lookupAssoc_modifyAssoc {κ α : Type} [DecidableEq κ] (l : List (κ × α)) (i : κ)
    (f : α → α) (j : κ) :
    lookupAssoc (modifyAssoc l i f) j =
      if j = i then (lookupAssoc l i).map f else lookupAssoc l j := by
  induction l with
  | nil => simp [lookupAssoc, modifyAssoc]
  | cons e rest ih =>
    rw [modifyAssoc]
    by_cases hei : e.1 = i
    · rw [if_pos hei, lookupAssoc, lookupAssoc, lookupAssoc, if_pos hei]
      by_cases hje : e.1 = j
      · have hji : j = i := hje.symm.trans hei
        rw [if_pos hje, if_pos hji]
        rfl
      · have hji : ¬ j = i := fun h => hje (hei.trans h.symm)
        rw [if_neg hje, if_neg hji, if_neg hje]
    · rw [if_neg hei, lookupAssoc, lookupAssoc, lookupAssoc, if_neg hei]
      by_cases hje : e.1 = j
      · have hji : ¬ j = i := fun h => hei (hje.trans h)
        rw [if_pos hje, if_neg hji, if_pos hje]
      · rw [if_neg hje, if_neg hje, ih]

theorem lookupAssoc_adjustAssoc {κ : Type} [DecidableEq κ] (l : List (κ × Int)) (i : κ)
    (d : Int) (j : κ) :
    lookupAssoc (adjustAssoc l i d) j =
      if j = i then some ((lookupAssoc l i).getD 0 + d) else lookupAssoc l j := by
  induction l with
  | nil =>
    by_cases hji : j = i
    · subst hji
      simp [lookupAssoc, adjustAssoc]
    · simp only [adjustAssoc, lookupAssoc, if_neg hji]
      rw [if_neg (fun h : i = j => hji h.symm)]
  | cons e rest ih =>
    rw [adjustAssoc]
    by_cases hei : e.1 = i
    · rw [if_pos hei, lookupAssoc, lookupAssoc, lookupAssoc, if_pos hei]
      by_cases hje : e.1 = j
      · have hji : j = i := hje.symm.trans hei
        rw [if_pos hje, if_pos hji]
        rfl
      · have hji : ¬ j = i := fun h => hje (hei.trans h.symm)
        rw [if_neg hje, if_neg hji, if_neg hje]
    · rw [if_neg hei, lookupAssoc, lookupAssoc, lookupAssoc, if_neg hei]
      by_cases hje : e.1 = j
      · have hji : ¬ j = i := fun h => hei (hje.trans h)
        rw [if_pos hje, if_neg hji, if_pos hje]
      · rw [if_neg hje, if_neg hje, ih]

theorem lookupAssoc_removeAssoc_ne {κ α : Type} [DecidableEq κ] (l : List (κ × α)) (i j : κ)
    (hji : j ≠ i) :
    lookupAssoc (removeAssoc l i) j = lookupAssoc l j := by
  induction l with
  | nil => simp [removeAssoc]
  | cons e rest ih =>
    rw [removeAssoc]
    by_cases hei : e.1 = i
    · have hje : ¬ e.1 = j := fun h => hji (h.symm.trans hei)
      rw [if_pos hei, lookupAssoc, if_neg hje]
    · rw [if_neg hei, lookupAssoc, lookupAssoc, ih]

theorem lookupAssoc_eq_none_of_not_mem_keys {κ α : Type} [DecidableEq κ]
    (l : List (κ × α)) (i : κ) (h : i ∉ l.map Prod.fst) : lookupAssoc l i = none := by
  induction l with
  | nil => rfl
  | cons e rest ih =>
    simp only [List.map_cons, List.mem_cons] at h
    push_neg at h
    rw [lookupAssoc, if_neg (fun he : e.1 = i => h.1 he.symm)]
    exact ih h.2

theorem lookupAssoc_removeAssoc_self {κ α : Type} [DecidableEq κ] (l : List (κ × α)) (i : κ)
    (hnodup : (l.map Prod.fst).Nodup) :
    lookupAssoc (removeAssoc l i) i = none := by
  induction l with
  | nil => simp [removeAssoc, lookupAssoc]
  | cons e rest ih =>
    simp only [List.map_cons, List.nodup_cons] at hnodup
    rw [removeAssoc]
    by_cases hei : e.1 = i
    · rw [if_pos hei]
      exact lookupAssoc_eq_none_of_not_mem_keys rest i (hei ▸ hnodup.1)
    · rw [if_neg hei, lookupAssoc, if_neg hei]
      exact ih hnodup.2

theorem lookupAssoc_mem {κ α : Type} [DecidableEq κ] (l : List (κ × α)) (i : κ) (b : α)
    (h : lookupAssoc l i = some b) : (i, b) ∈ l := by
  induction l with
  | nil => simp [lookupAssoc] at h
  | cons e rest ih =>
    rw [lookupAssoc] at h
    by_cases hei : e.1 = i
    · rw [if_pos hei] at h
      obtain ⟨e1, e2⟩ := e
      obtain rfl : e1 = i := hei
      obtain rfl : e2 = b := Option.some_injective _ h
      exact List.mem_cons_self _ _
    · rw [if_neg hei] at h
      exact List.mem_cons_of_mem _ (ih h)

/-! ## Data model

Translated from the operation header (time_lock_create_operation and the
other four operation structs) and the object header
(time_lock_balance_object, time_lock_withdrawal_object).  share_type
quantities are Int; object, account and asset identifiers are Nat.
fc::time_point_sec timestamps are Int seconds.
-/

/-- A (quantity, asset id) pair, modelling the graphene asset struct. -/
structure Asset where
  amount : Int
  asset_id : Nat
  deriving DecidableEq, Repr

/-- The persisted time-lock balance: owner account, stored funds, and the
review-period duration applied to every withdrawal drawn from it. -/
structure time_lock_balance_object where
  owner : Nat
  amount : Asset
  review_period_seconds : Int
  deriving DecidableEq, Repr

/-- A pending withdrawal.  The balance field holds the identifier of the
time-lock balance this withdrawal debits from (the evaluator assigns the
operation's balance id to it and resolves it against the database);
withdrawal is the share quantity, whose asset id is the balance's. -/
structure time_lock_withdrawal_object where
  balance : Nat
  withdrawal : Int
  recipient : Nat
  finalize_date : Int
  deriving DecidableEq, Repr

/-- The chain database as seen by the five evaluators: existing account and
asset ids, the ledger's per-account per-asset balances, the two object
indices with their next fresh ids, and the head block time. -/
structure ChainState where
  accounts : List Nat
  assets : List Nat
  ledger : List ((Nat × Nat) × Int)
  balances : List (Nat × time_lock_balance_object)
  withdrawals : List (Nat × time_lock_withdrawal_object)
  next_balance_id : Nat
  next_withdrawal_id : Nat
  head_block_time : Int
  deriving DecidableEq, Repr

/-- Ledger balance of an account in an asset (database::get_balance); an
account with no binding holds zero. -/
def get_balance (s : ChainState) (a : Nat) (k : Nat) : Int :=
  (lookupAssoc s.ledger (a, k)).getD 0

/-- Validation-failure taxonomy of the module. -/
inductive ChainError where
  | NotFound
  | Unauthorized
  | AssetMismatch
  | RecipientMismatch
  | AmountMismatch
  | InsufficientFunds
  | ReviewPeriodNotElapsed
  | InvalidArgument
  deriving DecidableEq, Repr

/-! ## Operation payloads and their stateless validate checks -/

/-- Payload of time_lock_create_operation. -/
structure time_lock_create_operation where
  fee : Asset
  owner : Nat
  initial_deposit : Asset
  review_period_seconds : Int
  deriving DecidableEq, Repr

/-- Stateless checks of time_lock_create_operation::validate: positive fee,
non-negative initial deposit, positive review period. -/
def time_lock_create_operation.validate (o : time_lock_create_operation) :
    Except ChainError Unit :=
  if o.fee.amount > 0 then
    if o.initial_deposit.amount ≥ 0 then
      if o.review_period_seconds > 0 then Except.ok ()
      else Except.error ChainError.InvalidArgument
    else Except.error ChainError.InvalidArgument
  else Except.error ChainError.InvalidArgument

/-- Payload of time_lock_deposit_operation. -/
structure time_lock_deposit_operation where
  fee : Asset
  owner : Nat
  balance : Nat
  deposit : Asset
  deriving DecidableEq, Repr

/-- Stateless checks of time_lock_deposit_operation::validate: positive fee
and strictly positive deposit. -/
def time_lock_deposit_operation.validate (o : time_lock_deposit_operation) :
    Except ChainError Unit :=
  if o.fee.amount > 0 then
    if o.deposit.amount > 0 then Except.ok ()
    else Except.error ChainError.InvalidArgument
  else Except.error ChainError.InvalidArgument

/-- Payload of time_lock_withdraw_operation. -/
structure time_lock_withdraw_operation where
  fee : Asset
  owner : Nat
  balance : Nat
  withdrawal : Asset
  recipient : Nat
  deriving DecidableEq, Repr

/-- Stateless checks of time_lock_withdraw_operation::validate: positive fee
and strictly positive withdrawal amount. -/
def time_lock_withdraw_operation.validate (o : time_lock_withdraw_operation) :
    Except ChainError Unit :=
  if o.fee.amount > 0 then
    if o.withdrawal.amount > 0 then Except.ok ()
    else Except.error ChainError.InvalidArgument
  else Except.error ChainError.InvalidArgument

/-- Payload of time_lock_abort_withdrawal_operation. -/
structure time_lock_abort_withdrawal_operation where
  fee : Asset
  owner : Nat
  withdrawal : Nat
  deriving DecidableEq, Repr

/-- Stateless check of time_lock_abort_withdrawal_operation::validate: a
zero fee is permitted, only a negative fee is refused. -/
def time_lock_abort_withdrawal_operation.validate
    (o : time_lock_abort_withdrawal_operation) : Except ChainError Unit :=
  if o.fee.amount ≥ 0 then Except.ok ()
  else Except.error ChainError.InvalidArgument

/-- Payload of time_lock_complete_withdrawal_operation. -/
structure time_lock_complete_withdrawal_operation where
  fee : Asset
  acting_account : Nat
  recipient : Nat
  amount : Asset
  withdrawal : Nat
  deriving DecidableEq, Repr

/-- Stateless checks of time_lock_complete_withdrawal_operation::validate:
a zero fee is permitted, and the restated amount must be positive. -/
def time_lock_complete_withdrawal_operation.validate
    (o : time_lock_complete_withdrawal_operation) : Except ChainError Unit :=
  if o.fee.amount ≥ 0 then
    if o.amount.amount > 0 then Except.ok ()
    else Except.error ChainError.InvalidArgument
  else Except.error ChainError.InvalidArgument

/-! ## Evaluators

Each do_evaluate mirrors the FC_ASSERT chain of the corresponding
evaluator in time_lock_evaluator.cpp, in source order; a failed object-id
resolution (the id(d) syntax) is a NotFound error.  Each do_apply mirrors
the corresponding mutation sequence; an apply whose id resolution would
throw returns none.
-/

namespace time_lock_create_evaluator

/-- Checks of time_lock_create_evaluator::do_evaluate: the owner account
and the deposit's asset must resolve, and the owner's ledger balance must
cover the initial deposit. -/
def do_evaluate (s : ChainState) (o : time_lock_create_operation) :
    Except ChainError Unit :=
  if o.owner ∈ s.accounts then
    if o.initial_deposit.asset_id ∈ s.assets then
      if get_balance s o.owner o.initial_deposit.asset_id ≥ o.initial_deposit.amount then
        Except.ok ()
      else Except.error ChainError.InsufficientFunds
    else Except.error ChainError.NotFound
  else Except.error ChainError.NotFound

/-- Mutations of time_lock_create_evaluator::do_apply: debit the initial
deposit from the owner's ledger balance and insert a fresh
time_lock_balance_object; returns the new balance's id. -/
def do_apply (s : ChainState) (o : time_lock_create_operation) : Nat × ChainState :=
  (s.next_balance_id,
    { s with
      ledger := adjustAssoc s.ledger (o.owner, o.initial_deposit.asset_id)
        (-o.initial_deposit.amount),
      balances := (s.next_balance_id,
        { owner := o.owner, amount := o.initial_deposit,
          review_period_seconds := o.review_period_seconds }) :: s.balances,
      next_balance_id := s.next_balance_id + 1 })

end time_lock_create_evaluator

namespace time_lock_deposit_evaluator

/-- Checks of time_lock_deposit_evaluator::do_evaluate: the balance must
resolve, belong to the depositing owner, be denominated in the deposit's
asset, the owner account must resolve, and the owner's ledger balance must
cover the deposit. -/
def do_evaluate (s : ChainState) (o : time_lock_deposit_operation) :
    Except ChainError Unit :=
  match lookupAssoc s.balances o.balance with
  | none => Except.error ChainError.NotFound
  | some balance =>
    if balance.owner = o.owner then
      if balance.amount.asset_id = o.deposit.asset_id then
        if o.owner ∈ s.accounts then
          if get_balance s o.owner o.deposit.asset_id ≥ o.deposit.amount then
            Except.ok ()
          else Except.error ChainError.InsufficientFunds
        else Except.error ChainError.NotFound
      else Except.error ChainError.AssetMismatch
    else Except.error ChainError.Unauthorized

/-- Mutations of time_lock_deposit_evaluator::do_apply: debit the deposit
from the owner's ledger balance and add its quantity to the stored balance. -/
def do_apply (s : ChainState) (o : time_lock_deposit_operation) : Option ChainState :=
  match lookupAssoc s.balances o.balance with
  | none => none
  | some _ =>
    some { s with
      ledger := adjustAssoc s.ledger (o.owner, o.deposit.asset_id) (-o.deposit.amount),
      balances := modifyAssoc s.balances o.balance
        (fun b => { b with
          amount := { amount := b.amount.amount + o.deposit.amount,
                      asset_id := b.amount.asset_id } }) }

end time_lock_deposit_evaluator

namespace time_lock_withdraw_evaluator

/-- Checks of time_lock_withdraw_evaluator::do_evaluate: the balance must
resolve and belong to the requesting owner, the withdrawal must be
denominated in the balance's asset, and the owner and recipient accounts
must resolve.  No comparison of the withdrawal quantity against the
balance's quantity is made here. -/
def do_evaluate (s : ChainState) (o : time_lock_withdraw_operation) :
    Except ChainError Unit :=
  match lookupAssoc s.balances o.balance with
  | none => Except.error ChainError.NotFound
  | some balance =>
    if balance.owner = o.owner then
      if o.withdrawal.asset_id = balance.amount.asset_id then
        if o.owner ∈ s.accounts then
          if o.recipient ∈ s.accounts then Except.ok ()
          else Except.error ChainError.NotFound
        else Except.error ChainError.NotFound
      else Except.error ChainError.AssetMismatch
    else Except.error ChainError.Unauthorized

/-- Mutations of time_lock_withdraw_evaluator::do_apply: insert a fresh
time_lock_withdrawal_object whose finalize date is the head block time
plus the balance's review period; no funds move.  Returns the new
withdrawal's id. -/
def do_apply (s : ChainState) (o : time_lock_withdraw_operation) :
    Option (Nat × ChainState) :=
  match lookupAssoc s.balances o.balance with
  | none => none
  | some balance =>
    some (s.next_withdrawal_id,
      { s with
        withdrawals := (s.next_withdrawal_id,
          { balance := o.balance, withdrawal := o.withdrawal.amount,
            recipient := o.recipient,
            finalize_date :=
              s.head_block_time + balance.review_period_seconds }) :: s.withdrawals,
        next_withdrawal_id := s.next_withdrawal_id + 1 })

end time_lock_withdraw_evaluator

namespace time_lock_abort_withdrawal_evaluator

/-- Checks of time_lock_abort_withdrawal_evaluator::do_evaluate: the
withdrawal and its owning balance must resolve and the aborting owner must
be the balance's owner.  The head block time is never consulted. -/
def do_evaluate (s : ChainState) (o : time_lock_abort_withdrawal_operation) :
    Except ChainError Unit :=
  match lookupAssoc s.withdrawals o.withdrawal with
  | none => Except.error ChainError.NotFound
  | some w =>
    match lookupAssoc s.balances w.balance with
    | none => Except.error ChainError.NotFound
    | some balance =>
      if o.owner = balance.owner then Except.ok ()
      else Except.error ChainError.Unauthorized

/-- Mutation of time_lock_abort_withdrawal_evaluator::do_apply: remove the
withdrawal object; ledger and balances untouched. -/
def do_apply (s : ChainState) (o : time_lock_abort_withdrawal_operation) :
    Option ChainState :=
  match lookupAssoc s.withdrawals o.withdrawal with
  | none => none
  | some _ => some { s with withdrawals := removeAssoc s.withdrawals o.withdrawal }

end time_lock_abort_withdrawal_evaluator

namespace time_lock_complete_withdrawal_evaluator

/-- Checks of time_lock_complete_withdrawal_evaluator::do_evaluate, in
source order: the withdrawal and its balance resolve, the review period
has elapsed, the balance covers the restated amount, the actor is the
balance's owner or the withdrawal's recipient, the restated recipient,
quantity and asset match. -/
def do_evaluate (s : ChainState) (o : time_lock_complete_withdrawal_operation) :
    Except ChainError Unit :=
  match lookupAssoc s.withdrawals o.withdrawal with
  | none => Except.error ChainError.NotFound
  | some withdrawal =>
    match lookupAssoc s.balances withdrawal.balance with
    | none => Except.error ChainError.NotFound
    | some balance =>
      if s.head_block_time ≥ withdrawal.finalize_date then
        if balance.amount.amount ≥ o.amount.amount then
          if o.acting_account = balance.owner ∨
             o.acting_account = withdrawal.recipient then
            if o.recipient = withdrawal.recipient then
              if o.amount.amount = withdrawal.withdrawal then
                if o.amount.asset_id = balance.amount.asset_id then Except.ok ()
                else Except.error ChainError.AssetMismatch
              else Except.error ChainError.AmountMismatch
            else Except.error ChainError.RecipientMismatch
          else Except.error ChainError.Unauthorized
        else Except.error ChainError.InsufficientFunds
      else Except.error ChainError.ReviewPeriodNotElapsed

/-- Mutations of time_lock_complete_withdrawal_evaluator::do_apply:
subtract the restated amount from the stored balance, credit the
recipient's ledger balance, and remove the withdrawal object. -/
def do_apply (s : ChainState) (o : time_lock_complete_withdrawal_operation) :
    Option ChainState :=
  match lookupAssoc s.withdrawals o.withdrawal with
  | none => none
  | some withdrawal =>
    match lookupAssoc s.balances withdrawal.balance with
    | none => none
    | some _ =>
      some { s with
        balances := modifyAssoc s.balances withdrawal.balance
          (fun b => { b with
            amount := { amount := b.amount.amount - o.amount.amount,
                        asset_id := b.amount.asset_id } }),
        ledger := adjustAssoc s.ledger (o.recipient, o.amount.asset_id) o.amount.amount,
        withdrawals := removeAssoc s.withdrawals o.withdrawal }

end time_lock_complete_withdrawal_evaluator

/-! ## Dispatcher

The surrounding ledger dispatches an incoming operation by running its
stateless validate, then the evaluator's do_evaluate, then do_apply.  A
failure at any stage rejects the operation and leaves the state untouched.
-/

/-- Sum of the five time-lock operation payloads. -/
inductive time_lock_operation where
  | create (o : time_lock_create_operation)
  | deposit (o : time_lock_deposit_operation)
  | withdraw (o : time_lock_withdraw_operation)
  | abort_withdrawal (o : time_lock_abort_withdrawal_operation)
  | complete_withdrawal (o : time_lock_complete_withdrawal_operation)
  deriving DecidableEq, Repr

/-- Run one operation through validate, do_evaluate and do_apply. -/
def step (s : ChainState) (op : time_lock_operation) : Except ChainError ChainState :=
  match op with
  | .create o =>
    match o.validate with
    | Except.error e => Except.error e
    | Except.ok () =>
      match time_lock_create_evaluator.do_evaluate s o with
      | Except.error e => Except.error e
      | Except.ok () => Except.ok (time_lock_create_evaluator.do_apply s o).2
  | .deposit o =>
    match o.validate with
    | Except.error e => Except.error e
    | Except.ok () =>
      match time_lock_deposit_evaluator.do_evaluate s o with
      | Except.error e => Except.error e
      | Except.ok () =>
        match time_lock_deposit_evaluator.do_apply s o with
        | none => Except.error ChainError.NotFound
        | some s2 => Except.ok s2
  | .withdraw o =>
    match o.validate with
    | Except.error e => Except.error e
    | Except.ok () =>
      match time_lock_withdraw_evaluator.do_evaluate s o with
      | Except.error e => Except.error e
      | Except.ok () =>
        match time_lock_withdraw_evaluator.do_apply s o with
        | none => Except.error ChainError.NotFound
        | some r => Except.ok r.2
  | .abort_withdrawal o =>
    match o.validate with
    | Except.error e => Except.error e
    | Except.ok () =>
      match time_lock_abort_withdrawal_evaluator.do_evaluate s o with
      | Except.error e => Except.error e
      | Except.ok () =>
        match time_lock_abort_withdrawal_evaluator.do_apply s o with
        | none => Except.error ChainError.NotFound
        | some s2 => Except.ok s2
  | .complete_withdrawal o =>
    match o.validate with
    | Except.error e => Except.error e
    | Except.ok () =>
      match time_lock_complete_withdrawal_evaluator.do_evaluate s o with
      | Except.error e => Except.error e
      | Except.ok () =>
        match time_lock_complete_withdrawal_evaluator.do_apply s o with
        | none => Except.error ChainError.NotFound
        | some s2 => Except.ok s2

/-- Run a sequence of operations; a rejected operation leaves the state
unchanged and processing continues with the next one. -/
def runOps (s : ChainState) (ops : List time_lock_operation) : ChainState :=
  match ops with
  | [] => s
  | op :: rest =>
    match step s op with
    | Except.ok s2 => runOps s2 rest
    | Except.error _ => runOps s rest

/-! ## Fund totals

Total funds of one asset kind held across the external ledger and all
time-lock balances.  Pending withdrawals hold no funds.
-/

/-- Contribution of one stored time-lock balance to the total of asset k. -/
def balance_contrib (b : time_lock_balance_object) (k : Nat) : Int :=
  if b.amount.asset_id = k then b.amount.amount else 0

/-- Total of asset k across the external ledger's account balances. -/
def ledger_total (l : List ((Nat × Nat) × Int)) (k : Nat) : Int :=
  (l.map (fun e => if e.1.2 = k then e.2 else 0)).sum

/-- Total of asset k across all stored time-lock balances. -/
def balances_total (l : List (Nat × time_lock_balance_object)) (k : Nat) : Int :=
  (l.map (fun e => balance_contrib e.2 k)).sum

/-- Total funds of asset k in the system: ledger plus time-lock balances. -/
def total_funds (s : ChainState) (k : Nat) : Int :=
  ledger_total s.ledger k + balances_total s.balances k

theorem ledger_total_adjustAssoc (l : List ((Nat × Nat) × Int)) (a k0 : Nat) (d : Int)
    (k : Nat) :
    ledger_total (adjustAssoc l (a, k0) d) k =
      ledger_total l k + (if k0 = k then d else 0) := by
  induction l with
  | nil => simp [adjustAssoc, ledger_total]
  | cons e rest ih =>
    rw [adjustAssoc]
    by_cases he : e.1 = (a, k0)
    · rw [if_pos he]
      simp only [ledger_total, List.map_cons, List.sum_cons, he]
      by_cases hk : k0 = k
      · rw [if_pos hk, if_pos hk, if_pos hk]
        ring
      · rw [if_neg hk, if_neg hk, if_neg hk]
        ring
    · rw [if_neg he]
      simp only [ledger_total, List.map_cons, List.sum_cons] at ih ⊢
      rw [ih]
      ring

theorem balances_total_modifyAssoc (l : List (Nat × time_lock_balance_object)) (i : Nat)
    (f : time_lock_balance_object → time_lock_balance_object) (b : time_lock_balance_object)
    (hb : lookupAssoc l i = some b) (k : Nat) :
    balances_total (modifyAssoc l i f) k =
      balances_total l k + (balance_contrib (f b) k - balance_contrib b k) := by
  induction l with
  | nil => simp [lookupAssoc] at hb
  | cons e rest ih =>
    rw [lookupAssoc] at hb
    rw [modifyAssoc]
    by_cases he : e.1 = i
    · rw [if_pos he] at hb ⊢
      obtain rfl : e.2 = b := Option.some_injective _ hb
      simp only [balances_total, List.map_cons, List.sum_cons]
      ring
    · rw [if_neg he] at hb ⊢
      simp only [balances_total, List.map_cons, List.sum_cons] at ih ⊢
      rw [ih hb]
      ring

/-! ## Characterizations of the validation functions -/

theorem create_validate_ok_iff (o : time_lock_create_operation) :
    o.validate = Except.ok () ↔
      o.fee.amount > 0 ∧ o.initial_deposit.amount ≥ 0 ∧ o.review_period_seconds > 0 := by
  unfold time_lock_create_operation.validate
  split_ifs <;> simp_all

theorem deposit_validate_ok_iff (o : time_lock_deposit_operation) :
    o.validate = Except.ok () ↔ o.fee.amount > 0 ∧ o.deposit.amount > 0 := by
  unfold time_lock_deposit_operation.validate
  split_ifs <;> simp_all

theorem withdraw_validate_ok_iff (o : time_lock_withdraw_operation) :
    o.validate = Except.ok () ↔ o.fee.amount > 0 ∧ o.withdrawal.amount > 0 := by
  unfold time_lock_withdraw_operation.validate
  split_ifs <;> simp_all

theorem abort_validate_ok_iff (o : time_lock_abort_withdrawal_operation) :
    o.validate = Except.ok () ↔ o.fee.amount ≥ 0 := by
  unfold time_lock_abort_withdrawal_operation.validate
  split_ifs <;> simp_all

theorem complete_validate_ok_iff (o : time_lock_complete_withdrawal_operation) :
    o.validate = Except.ok () ↔ o.fee.amount ≥ 0 ∧ o.amount.amount > 0 := by
  unfold time_lock_complete_withdrawal_operation.validate
  split_ifs <;> simp_all

theorem create_do_evaluate_ok_iff (s : ChainState) (o : time_lock_create_operation) :
    time_lock_create_evaluator.do_evaluate s o = Except.ok () ↔
      o.owner ∈ s.accounts ∧ o.initial_deposit.asset_id ∈ s.assets ∧
      get_balance s o.owner o.initial_deposit.asset_id ≥ o.initial_deposit.amount := by
  unfold time_lock_create_evaluator.do_evaluate
  split_ifs <;> simp_all

theorem deposit_do_evaluate_ok_iff (s : ChainState) (o : time_lock_deposit_operation) :
    time_lock_deposit_evaluator.do_evaluate s o = Except.ok () ↔
      ∃ b, lookupAssoc s.balances o.balance = some b ∧ b.owner = o.owner ∧
        b.amount.asset_id = o.deposit.asset_id ∧ o.owner ∈ s.accounts ∧
        get_balance s o.owner o.deposit.asset_id ≥ o.deposit.amount := by
  unfold time_lock_deposit_evaluator.do_evaluate
  cases hb : lookupAssoc s.balances o.balance with
  | none => simp
  | some b =>
    dsimp only
    by_cases h1 : b.owner = o.owner <;>
      by_cases h2 : b.amount.asset_id = o.deposit.asset_id <;>
      by_cases h3 : o.owner ∈ s.accounts <;>
      by_cases h4 : get_balance s o.owner o.deposit.asset_id ≥ o.deposit.amount <;>
      simp_all

theorem withdraw_do_evaluate_ok_iff (s : ChainState) (o : time_lock_withdraw_operation) :
    time_lock_withdraw_evaluator.do_evaluate s o = Except.ok () ↔
      ∃ b, lookupAssoc s.balances o.balance = some b ∧ b.owner = o.owner ∧
        o.withdrawal.asset_id = b.amount.asset_id ∧ o.owner ∈ s.accounts ∧
        o.recipient ∈ s.accounts := by
  unfold time_lock_withdraw_evaluator.do_evaluate
  cases hb : lookupAssoc s.balances o.balance with
  | none => simp
  | some b =>
    dsimp only
    by_cases h1 : b.owner = o.owner <;>
      by_cases h2 : o.withdrawal.asset_id = b.amount.asset_id <;>
      by_cases h3 : o.owner ∈ s.accounts <;>
      by_cases h4 : o.recipient ∈ s.accounts <;>
      simp_all

theorem abort_do_evaluate_ok_iff (s : ChainState)
    (o : time_lock_abort_withdrawal_operation) :
    time_lock_abort_withdrawal_evaluator.do_evaluate s o = Except.ok () ↔
      ∃ w b, lookupAssoc s.withdrawals o.withdrawal = some w ∧
        lookupAssoc s.balances w.balance = some b ∧ o.owner = b.owner := by
  unfold time_lock_abort_withdrawal_evaluator.do_evaluate
  cases hw : lookupAssoc s.withdrawals o.withdrawal with
  | none => simp
  | some w =>
    dsimp only
    cases hb : lookupAssoc s.balances w.balance with
    | none => simp_all
    | some b =>
      dsimp only
      by_cases h1 : o.owner = b.owner <;> simp_all

theorem complete_do_evaluate_ok_iff (s : ChainState)
    (o : time_lock_complete_withdrawal_operation) :
    time_lock_complete_withdrawal_evaluator.do_evaluate s o = Except.ok () ↔
      ∃ w b, lookupAssoc s.withdrawals o.withdrawal = some w ∧
        lookupAssoc s.balances w.balance = some b ∧
        s.head_block_time ≥ w.finalize_date ∧
        b.amount.amount ≥ o.amount.amount ∧
        (o.acting_account = b.owner ∨ o.acting_account = w.recipient) ∧
        o.recipient = w.recipient ∧
        o.amount.amount = w.withdrawal ∧
        o.amount.asset_id = b.amount.asset_id := by
  unfold time_lock_complete_withdrawal_evaluator.do_evaluate
  cases hw : lookupAssoc s.withdrawals o.withdrawal with
  | none => simp
  | some w =>
    dsimp only
    cases hb : lookupAssoc s.balances w.balance with
    | none => simp_all
    | some b =>
      dsimp only
      by_cases h1 : s.head_block_time ≥ w.finalize_date <;>
        by_cases h2 : b.amount.amount ≥ o.amount.amount <;>
        by_cases h3 : o.acting_account = b.owner ∨ o.acting_account = w.recipient <;>
        by_cases h4 : o.recipient = w.recipient <;>
        by_cases h5 : o.amount.amount = w.withdrawal <;>
        by_cases h6 : o.amount.asset_id = b.amount.asset_id <;>
        simp_all <;> split_ifs <;> simp_all

theorem balances_total_cons (i : Nat) (b : time_lock_balance_object)
    (l : List (Nat × time_lock_balance_object)) (k : Nat) :
    balances_total ((i, b) :: l) k = balance_contrib b k + balances_total l k := by
  simp [balances_total]

theorem step_preserves_total_funds (s : ChainState) (op : time_lock_operation)
    (s' : ChainState) (h : step s op = Except.ok s') (k : Nat) :
    total_funds s' k = total_funds s k := by
  cases op with
  | create o =>
    simp only [step] at h
    cases hv : o.validate with
    | error e => rw [hv] at h; simp at h
    | ok u =>
      cases u
      rw [hv] at h
      cases hev : time_lock_create_evaluator.do_evaluate s o with
      | error e => rw [hev] at h; simp at h
      | ok u2 =>
        cases u2
        rw [hev] at h
        simp only [Except.ok.injEq] at h
        subst h
        simp only [time_lock_create_evaluator.do_apply, total_funds]
        rw [ledger_total_adjustAssoc, balances_total_cons]
        simp only [balance_contrib]
        by_cases hk : o.initial_deposit.asset_id = k
        · rw [if_pos hk, if_pos hk]; ring
        · rw [if_neg hk, if_neg hk]; ring
  | deposit o =>
    simp only [step] at h
    cases hv : o.validate with
    | error e => rw [hv] at h; simp at h
    | ok u =>
      cases u
      rw [hv] at h
      cases hev : time_lock_deposit_evaluator.do_evaluate s o with
      | error e => rw [hev] at h; simp at h
      | ok u2 =>
        cases u2
        rw [hev] at h
        obtain ⟨b, hb, hown, hasset, hacct, hfunds⟩ :=
          (deposit_do_evaluate_ok_iff s o).1 hev
        rw [time_lock_deposit_evaluator.do_apply, hb] at h
        simp only [Except.ok.injEq] at h
        subst h
        simp only [total_funds]
        rw [ledger_total_adjustAssoc, balances_total_modifyAssoc _ _ _ b hb]
        simp only [balance_contrib]
        by_cases hk : b.amount.asset_id = k
        · rw [if_pos hk, if_pos hk, if_pos (hasset ▸ hk)]; ring
        · rw [if_neg hk, if_neg hk, if_neg (fun hdk => hk (hasset ▸ hdk))]; ring
  | withdraw o =>
    simp only [step] at h
    cases hv : o.validate with
    | error e => rw [hv] at h; simp at h
    | ok u =>
      cases u
      rw [hv] at h
      cases hev : time_lock_withdraw_evaluator.do_evaluate s o with
      | error e => rw [hev] at h; simp at h
      | ok u2 =>
        cases u2
        rw [hev] at h
        obtain ⟨b, hb, -, -, -, -⟩ := (withdraw_do_evaluate_ok_iff s o).1 hev
        rw [time_lock_withdraw_evaluator.do_apply, hb] at h
        simp only [Except.ok.injEq] at h
        subst h
        rfl
  | abort_withdrawal o =>
    simp only [step] at h
    cases hv : o.validate with
    | error e => rw [hv] at h; simp at h
    | ok u =>
      cases u
      rw [hv] at h
      cases hev : time_lock_abort_withdrawal_evaluator.do_evaluate s o with
      | error e => rw [hev] at h; simp at h
      | ok u2 =>
        cases u2
        rw [hev] at h
        obtain ⟨w, b, hw, hb, hown⟩ := (abort_do_evaluate_ok_iff s o).1 hev
        rw [time_lock_abort_withdrawal_evaluator.do_apply, hw] at h
        simp only [Except.ok.injEq] at h
        subst h
        rfl
  | complete_withdrawal o =>
    simp only [step] at h
    cases hv : o.validate with
    | error e => rw [hv] at h; simp at h
    | ok u =>
      cases u
      rw [hv] at h
      cases hev : time_lock_complete_withdrawal_evaluator.do_evaluate s o with
      | error e => rw [hev] at h; simp at h
      | ok u2 =>
        cases u2
        rw [hev] at h
        obtain ⟨w, b, hw, hb, -, -, -, -, -, hasset⟩ :=
          (complete_do_evaluate_ok_iff s o).1 hev
        simp only [time_lock_complete_withdrawal_evaluator.do_apply, hw, hb] at h
        simp only [Except.ok.injEq] at h
        subst h
        simp only [total_funds]
        rw [ledger_total_adjustAssoc, balances_total_modifyAssoc _ _ _ b hb]
        simp only [balance_contrib]
        by_cases hk : b.amount.asset_id = k
        · rw [if_pos hk, if_pos hk, if_pos (hasset ▸ hk)]; ring
        · rw [if_neg hk, if_neg hk, if_neg (fun hdk => hk (hasset ▸ hdk))]; ring

theorem runOps_preserves_total_funds (s : ChainState) (ops : List time_lock_operation)
    (k : Nat) : total_funds (runOps s ops) k = total_funds s k := by
  induction ops generalizing s with
  | nil => rfl
  | cons op rest ih =>
    rw [runOps]
    cases hstep : step s op with
    | ok s2 => rw [ih s2, step_preserves_total_funds s op s2 hstep k]
    | error e => exact ih s

/-! ## Example states used by witnesses -/

/-- A small chain state: accounts 0 and 1, asset 7, account 0 holding 100. -/
def baseState : ChainState :=
  { accounts := [0, 1], assets := [7], ledger := [((0, 7), 100)], balances := [],
    withdrawals := [], next_balance_id := 0, next_withdrawal_id := 0,
    head_block_time := 0 }

/-- A create operation owned by account 0, depositing 10 of asset 7. -/
def baseCreateOp : time_lock_create_operation :=
  { fee := ⟨1, 7⟩, owner := 0, initial_deposit := ⟨10, 7⟩, review_period_seconds := 5 }

/-- The state after dispatching baseCreateOp on baseState. -/
def baseStateAfterCreate : ChainState :=
  { accounts := [0, 1], assets := [7], ledger := [((0, 7), 90)],
    balances := [(0, { owner := 0, amount := ⟨10, 7⟩, review_period_seconds := 5 })],
    withdrawals := [], next_balance_id := 1, next_withdrawal_id := 0,
    head_block_time := 0 }

/-! ## Claims -/

/-- C1: every operation accepted by validation conserves, per asset kind,
the total funds held across the external ledger and the time-lock
balances (fees are outside the model), and hence no sequence of
operations creates or duplicates funds. -/
theorem time_lock_funds_conservation (s : ChainState) (op : time_lock_operation)
    (s' : ChainState) (h : step s op = Except.ok s') :
    (∀ k, total_funds s' k = total_funds s k) ∧
    (∀ ops k, total_funds (runOps s ops) k = total_funds s k) :=
  ⟨fun k => step_preserves_total_funds s op s' h k,
   fun ops k => runOps_preserves_total_funds s ops k⟩

/-- Witness for C1 at a concrete accepted create operation. -/
theorem time_lock_funds_conservation_witness :
    total_funds baseStateAfterCreate 7 = total_funds baseState 7 :=
  (time_lock_funds_conservation baseState (.create baseCreateOp) baseStateAfterCreate
    (by rfl)).1 7

/-- C10: the stateless validate accepts a zero fee for AbortWithdrawal and
CompleteWithdrawal but requires a strictly positive fee for Create,
Deposit and RequestWithdrawal; Create accepts a zero initial deposit
while Deposit and CompleteWithdrawal require strictly positive amounts. -/
theorem operation_validate_characterization (oc : time_lock_create_operation)
    (od : time_lock_deposit_operation) (ow : time_lock_withdraw_operation)
    (oa : time_lock_abort_withdrawal_operation)
    (ox : time_lock_complete_withdrawal_operation) :
    (oc.validate = Except.ok () ↔
      oc.fee.amount > 0 ∧ oc.initial_deposit.amount ≥ 0 ∧ oc.review_period_seconds > 0) ∧
    (od.validate = Except.ok () ↔ od.fee.amount > 0 ∧ od.deposit.amount > 0) ∧
    (ow.validate = Except.ok () ↔ ow.fee.amount > 0 ∧ ow.withdrawal.amount > 0) ∧
    (oa.validate = Except.ok () ↔ oa.fee.amount ≥ 0) ∧
    (ox.validate = Except.ok () ↔ ox.fee.amount ≥ 0 ∧ ox.amount.amount > 0) :=
  ⟨create_validate_ok_iff oc, deposit_validate_ok_iff od, withdraw_validate_ok_iff ow,
   abort_validate_ok_iff oa, complete_validate_ok_iff ox⟩

/-- C3: CompleteWithdrawal validation checks its conditions in source
order, each failing with its own error; whenever the review period has
not elapsed it fails with ReviewPeriodNotElapsed regardless of the other
fields, and the rejected operation leaves the state unchanged. -/
theorem complete_withdrawal_validation_order (s : ChainState)
    (o : time_lock_complete_withdrawal_operation) (w : time_lock_withdrawal_object)
    (b : time_lock_balance_object)
    (hw : lookupAssoc s.withdrawals o.withdrawal = some w)
    (hb : lookupAssoc s.balances w.balance = some b) :
    (s.head_block_time < w.finalize_date →
      time_lock_complete_withdrawal_evaluator.do_evaluate s o =
        Except.error ChainError.ReviewPeriodNotElapsed ∧
      runOps s [time_lock_operation.complete_withdrawal o] = s) ∧
    (s.head_block_time ≥ w.finalize_date → b.amount.amount < o.amount.amount →
      time_lock_complete_withdrawal_evaluator.do_evaluate s o =
        Except.error ChainError.InsufficientFunds) ∧
    (s.head_block_time ≥ w.finalize_date → b.amount.amount ≥ o.amount.amount →
      ¬(o.acting_account = b.owner ∨ o.acting_account = w.recipient) →
      time_lock_complete_withdrawal_evaluator.do_evaluate s o =
        Except.error ChainError.Unauthorized) ∧
    (s.head_block_time ≥ w.finalize_date → b.amount.amount ≥ o.amount.amount →
      (o.acting_account = b.owner ∨ o.acting_account = w.recipient) →
      o.recipient ≠ w.recipient →
      time_lock_complete_withdrawal_evaluator.do_evaluate s o =
        Except.error ChainError.RecipientMismatch) ∧
    (s.head_block_time ≥ w.finalize_date → b.amount.amount ≥ o.amount.amount →
      (o.acting_account = b.owner ∨ o.acting_account = w.recipient) →
      o.recipient = w.recipient → o.amount.amount ≠ w.withdrawal →
      time_lock_complete_withdrawal_evaluator.do_evaluate s o =
        Except.error ChainError.AmountMismatch) ∧
    (s.head_block_time ≥ w.finalize_date → b.amount.amount ≥ o.amount.amount →
      (o.acting_account = b.owner ∨ o.acting_account = w.recipient) →
      o.recipient = w.recipient → o.amount.amount = w.withdrawal →
      o.amount.asset_id ≠ b.amount.asset_id →
      time_lock_complete_withdrawal_evaluator.do_evaluate s o =
        Except.error ChainError.AssetMismatch) := by
  have hev : time_lock_complete_withdrawal_evaluator.do_evaluate s o =
      (if s.head_block_time ≥ w.finalize_date then
        if b.amount.amount ≥ o.amount.amount then
          if o.acting_account = b.owner ∨ o.acting_account = w.recipient then
            if o.recipient = w.recipient then
              if o.amount.amount = w.withdrawal then
                if o.amount.asset_id = b.amount.asset_id then Except.ok ()
                else Except.error ChainError.AssetMismatch
              else Except.error ChainError.AmountMismatch
            else Except.error ChainError.RecipientMismatch
          else Except.error ChainError.Unauthorized
        else Except.error ChainError.InsufficientFunds
      else Except.error ChainError.ReviewPeriodNotElapsed) := by
    simp only [time_lock_complete_withdrawal_evaluator.do_evaluate, hw, hb]
  refine ⟨?_, ?_, ?_, ?_, ?_, ?_⟩
  · intro hlt
    have herr : time_lock_complete_withdrawal_evaluator.do_evaluate s o =
        Except.error ChainError.ReviewPeriodNotElapsed := by
      rw [hev, if_neg (not_le.mpr hlt)]
    refine ⟨herr, ?_⟩
    rw [runOps]
    cases hv : o.validate with
    | error e => simp only [step, hv]; rfl
    | ok u =>
      cases u
      simp only [step, hv, herr]
      rfl
  · intro ht hlt
    rw [hev, if_pos ht, if_neg (not_le.mpr hlt)]
  · intro ht hf hact
    rw [hev, if_pos ht, if_pos hf, if_neg hact]
  · intro ht hf hact hrec
    rw [hev, if_pos ht, if_pos hf, if_pos hact, if_neg hrec]
  · intro ht hf hact hrec hamt
    rw [hev, if_pos ht, if_pos hf, if_pos hact, if_pos hrec, if_neg hamt]
  · intro ht hf hact hrec hamt hassetne
    rw [hev, if_pos ht, if_pos hf, if_pos hact, if_pos hrec, if_pos hamt, if_neg hassetne]

/-- A chain state holding one time-lock balance of 50 units of asset 7
owned by account 0 and one pending withdrawal of 20 to account 1 that
finalizes at time 10, with the head block time still at 3. -/
def pendingState : ChainState :=
  { accounts := [0, 1], assets := [7], ledger := [((0, 7), 100)],
    balances := [(0, { owner := 0, amount := ⟨50, 7⟩, review_period_seconds := 5 })],
    withdrawals := [(0, { balance := 0, withdrawal := 20, recipient := 1,
                          finalize_date := 10 })],
    next_balance_id := 1, next_withdrawal_id := 1, head_block_time := 3 }

/-- A completion naming pendingState's withdrawal with all fields correct. -/
def pendingCompleteOp : time_lock_complete_withdrawal_operation :=
  { fee := ⟨0, 7⟩, acting_account := 1, recipient := 1, amount := ⟨20, 7⟩,
    withdrawal := 0 }

/-- Witness for C3: completing pendingState's withdrawal at time 3, before
its finalize date 10, is rejected with ReviewPeriodNotElapsed and mutates
nothing, although every other field of the operation is correct. -/
theorem complete_withdrawal_validation_order_witness :
    time_lock_complete_withdrawal_evaluator.do_evaluate pendingState pendingCompleteOp =
      Except.error ChainError.ReviewPeriodNotElapsed ∧
    runOps pendingState [time_lock_operation.complete_withdrawal pendingCompleteOp] =
      pendingState :=
  (complete_withdrawal_validation_order pendingState pendingCompleteOp
    { balance := 0, withdrawal := 20, recipient := 1, finalize_date := 10 }
    { owner := 0, amount := ⟨50, 7⟩, review_period_seconds := 5 }
    (by rfl) (by rfl)).1 (by decide)

/-- C4: RequestWithdrawal validation never compares the requested quantity
against the balance's quantity — it succeeds whenever the balance exists,
the actor owns it, the asset matches and the recipient resolves — while a
shortfall is detected only by CompleteWithdrawal's validation, which
fails with InsufficientFunds when the balance no longer covers the
amount. -/
theorem withdraw_defers_quantity_check (s : ChainState)
    (o : time_lock_withdraw_operation) (b : time_lock_balance_object)
    (hb : lookupAssoc s.balances o.balance = some b)
    (hown : b.owner = o.owner)
    (hasset : o.withdrawal.asset_id = b.amount.asset_id)
    (hO : o.owner ∈ s.accounts) (hR : o.recipient ∈ s.accounts) :
    time_lock_withdraw_evaluator.do_evaluate s o = Except.ok () ∧
    ∀ (s2 : ChainState) (oc : time_lock_complete_withdrawal_operation)
      (w : time_lock_withdrawal_object) (b2 : time_lock_balance_object),
      lookupAssoc s2.withdrawals oc.withdrawal = some w →
      lookupAssoc s2.balances w.balance = some b2 →
      s2.head_block_time ≥ w.finalize_date →
      b2.amount.amount < oc.amount.amount →
      time_lock_complete_withdrawal_evaluator.do_evaluate s2 oc =
        Except.error ChainError.InsufficientFunds := by
  constructor
  · exact (withdraw_do_evaluate_ok_iff s o).2 ⟨b, hb, hown, hasset, hO, hR⟩
  · intro s2 oc w b2 hw2 hb2 ht hlt
    simp only [time_lock_complete_withdrawal_evaluator.do_evaluate, hw2, hb2]
    rw [if_pos ht, if_neg (not_le.mpr hlt)]

/-- A request to withdraw 80 of asset 7 from pendingState's balance of 50,
by its owner, to account 1. -/
def oversizedWithdrawOp : time_lock_withdraw_operation :=
  { fee := ⟨1, 7⟩, owner := 0, balance := 0, withdrawal := ⟨80, 7⟩, recipient := 1 }

/-- The pending state with its withdrawal enlarged to 80 and the head
block time moved past the finalize date. -/
def oversizedDueState : ChainState :=
  { accounts := [0, 1], assets := [7], ledger := [((0, 7), 100)],
    balances := [(0, { owner := 0, amount := ⟨50, 7⟩, review_period_seconds := 5 })],
    withdrawals := [(0, { balance := 0, withdrawal := 80, recipient := 1,
                          finalize_date := 10 })],
    next_balance_id := 1, next_withdrawal_id := 1, head_block_time := 12 }

/-- A completion restating the oversized withdrawal of 80. -/
def oversizedCompleteOp : time_lock_complete_withdrawal_operation :=
  { fee := ⟨0, 7⟩, acting_account := 1, recipient := 1, amount := ⟨80, 7⟩,
    withdrawal := 0 }

/-- Witness for C4: requesting a withdrawal of 80 against a balance of 50
validates, and completing it once due fails with InsufficientFunds. -/
theorem withdraw_defers_quantity_check_witness :
    time_lock_withdraw_evaluator.do_evaluate pendingState oversizedWithdrawOp =
      Except.ok () ∧
    time_lock_complete_withdrawal_evaluator.do_evaluate oversizedDueState
      oversizedCompleteOp = Except.error ChainError.InsufficientFunds :=
  ⟨(withdraw_defers_quantity_check pendingState oversizedWithdrawOp
      { owner := 0, amount := ⟨50, 7⟩, review_period_seconds := 5 }
      (by rfl) (by rfl) (by rfl) (by decide) (by decide)).1,
   (withdraw_defers_quantity_check pendingState oversizedWithdrawOp
      { owner := 0, amount := ⟨50, 7⟩, review_period_seconds := 5 }
      (by rfl) (by rfl) (by rfl) (by decide) (by decide)).2
     oversizedDueState oversizedCompleteOp
     { balance := 0, withdrawal := 80, recipient := 1, finalize_date := 10 }
     { owner := 0, amount := ⟨50, 7⟩, review_period_seconds := 5 }
     (by rfl) (by rfl) (by decide) (by decide)⟩

/-- C6: RequestWithdrawal's apply creates exactly one pending-withdrawal
record whose finalize date is the current head block time plus the
balance's review period, returns the new record's identifier, and leaves
every time-lock balance and every ledger balance unchanged. -/
theorem withdraw_apply_creates_one_record (s : ChainState)
    (o : time_lock_withdraw_operation) (b : time_lock_balance_object)
    (hb : lookupAssoc s.balances o.balance = some b) :
    ∃ s2, time_lock_withdraw_evaluator.do_apply s o = some (s.next_withdrawal_id, s2) ∧
      s2.withdrawals = (s.next_withdrawal_id,
        { balance := o.balance, withdrawal := o.withdrawal.amount,
          recipient := o.recipient,
          finalize_date := s.head_block_time + b.review_period_seconds }) ::
        s.withdrawals ∧
      s2.balances = s.balances ∧ s2.ledger = s.ledger := by
  refine ⟨{ s with
      withdrawals := (s.next_withdrawal_id,
        { balance := o.balance, withdrawal := o.withdrawal.amount,
          recipient := o.recipient,
          finalize_date := s.head_block_time + b.review_period_seconds }) ::
        s.withdrawals,
      next_withdrawal_id := s.next_withdrawal_id + 1 }, ?_, rfl, rfl, rfl⟩
  simp only [time_lock_withdraw_evaluator.do_apply, hb]

/-- Witness for C6 at pendingState: a request of 80 creates the single new
record with finalize date 3 + 5 and moves no funds. -/
theorem withdraw_apply_creates_one_record_witness :
    ∃ s2, time_lock_withdraw_evaluator.do_apply pendingState oversizedWithdrawOp =
        some (pendingState.next_withdrawal_id, s2) ∧
      s2.withdrawals = (pendingState.next_withdrawal_id,
        { balance := oversizedWithdrawOp.balance,
          withdrawal := oversizedWithdrawOp.withdrawal.amount,
          recipient := oversizedWithdrawOp.recipient,
          finalize_date := pendingState.head_block_time + 5 }) ::
        pendingState.withdrawals ∧
      s2.balances = pendingState.balances ∧ s2.ledger = pendingState.ledger :=
  withdraw_apply_creates_one_record pendingState oversizedWithdrawOp
    { owner := 0, amount := ⟨50, 7⟩, review_period_seconds := 5 } (by rfl)

/-- C7: AbortWithdrawal validation succeeds exactly when the withdrawal
exists and the actor is the owning balance's owner (in a state whose
withdrawal records all reference existing balances); an existing
withdrawal whose balance owner differs from the actor — in particular the
withdrawal's recipient when it is not the owner — is refused with
Unauthorized; the current time is never consulted; and apply deletes only
the withdrawal record, leaving balances and ledger unchanged. -/
theorem abort_withdrawal_characterization (s : ChainState)
    (o : time_lock_abort_withdrawal_operation)
    (href : ∀ i w, lookupAssoc s.withdrawals i = some w →
      ∃ b, lookupAssoc s.balances w.balance = some b) :
    (time_lock_abort_withdrawal_evaluator.do_evaluate s o = Except.ok () ↔
      ∃ w b, lookupAssoc s.withdrawals o.withdrawal = some w ∧
        lookupAssoc s.balances w.balance = some b ∧ o.owner = b.owner) ∧
    (∀ w b, lookupAssoc s.withdrawals o.withdrawal = some w →
      lookupAssoc s.balances w.balance = some b → o.owner ≠ b.owner →
      time_lock_abort_withdrawal_evaluator.do_evaluate s o =
        Except.error ChainError.Unauthorized) ∧
    (∀ t, time_lock_abort_withdrawal_evaluator.do_evaluate
        { s with head_block_time := t } o =
      time_lock_abort_withdrawal_evaluator.do_evaluate s o) ∧
    (∀ w, lookupAssoc s.withdrawals o.withdrawal = some w →
      time_lock_abort_withdrawal_evaluator.do_apply s o =
        some { s with withdrawals := removeAssoc s.withdrawals o.withdrawal }) := by
  refine ⟨abort_do_evaluate_ok_iff s o, ?_, fun t => rfl, ?_⟩
  · intro w b hw hb hne
    simp only [time_lock_abort_withdrawal_evaluator.do_evaluate, hw, hb]
    rw [if_neg hne]
  · intro w hw
    simp only [time_lock_abort_withdrawal_evaluator.do_apply, hw]

/-- An abort of pendingState's withdrawal issued by the balance owner. -/
def pendingAbortOp : time_lock_abort_withdrawal_operation :=
  { fee := ⟨0, 7⟩, owner := 0, withdrawal := 0 }

/-- Witness for C7 at pendingState: the owner's abort validates, the
recipient's abort is Unauthorized, the check ignores the clock, and apply
removes exactly the record. -/
theorem abort_withdrawal_characterization_witness :
    (time_lock_abort_withdrawal_evaluator.do_evaluate pendingState pendingAbortOp =
        Except.ok () ↔
      ∃ w b, lookupAssoc pendingState.withdrawals pendingAbortOp.withdrawal = some w ∧
        lookupAssoc pendingState.balances w.balance = some b ∧
        pendingAbortOp.owner = b.owner) ∧
    (∀ w b, lookupAssoc pendingState.withdrawals pendingAbortOp.withdrawal = some w →
      lookupAssoc pendingState.balances w.balance = some b →
      pendingAbortOp.owner ≠ b.owner →
      time_lock_abort_withdrawal_evaluator.do_evaluate pendingState pendingAbortOp =
        Except.error ChainError.Unauthorized) ∧
    (∀ t, time_lock_abort_withdrawal_evaluator.do_evaluate
        { pendingState with head_block_time := t } pendingAbortOp =
      time_lock_abort_withdrawal_evaluator.do_evaluate pendingState pendingAbortOp) ∧
    (∀ w, lookupAssoc pendingState.withdrawals pendingAbortOp.withdrawal = some w →
      time_lock_abort_withdrawal_evaluator.do_apply pendingState pendingAbortOp =
        some { pendingState with
          withdrawals := removeAssoc pendingState.withdrawals pendingAbortOp.withdrawal }) :=
  abort_withdrawal_characterization pendingState pendingAbortOp
    (fun i w hw => by
      have h0 : lookupAssoc pendingState.withdrawals i =
          if 0 = i then
            some { balance := 0, withdrawal := 20, recipient := 1, finalize_date := 10 }
          else none := rfl
      rw [h0] at hw
      by_cases hi : 0 = i
      · rw [if_pos hi] at hw
        obtain rfl := Option.some_injective _ hw
        exact ⟨{ owner := 0, amount := ⟨50, 7⟩, review_period_seconds := 5 }, rfl⟩
      · rw [if_neg hi] at hw
        exact Option.noConfusion hw)

/-- C8: after a successful AbortWithdrawal, a CompleteWithdrawal naming
the same withdrawal identifier fails validation with NotFound, and the
rejected completion changes nothing. -/
theorem abort_then_complete_not_found (s : ChainState)
    (oa : time_lock_abort_withdrawal_operation) (s2 : ChainState)
    (hnodup : (s.withdrawals.map Prod.fst).Nodup)
    (happly : time_lock_abort_withdrawal_evaluator.do_apply s oa = some s2) :
    ∀ oc : time_lock_complete_withdrawal_operation, oc.withdrawal = oa.withdrawal →
      time_lock_complete_withdrawal_evaluator.do_evaluate s2 oc =
        Except.error ChainError.NotFound ∧
      runOps s2 [time_lock_operation.complete_withdrawal oc] = s2 := by
  intro oc hid
  cases hw : lookupAssoc s.withdrawals oa.withdrawal with
  | none =>
    rw [time_lock_abort_withdrawal_evaluator.do_apply] at happly
    rw [hw] at happly
    exact Option.noConfusion happly
  | some w =>
    simp only [time_lock_abort_withdrawal_evaluator.do_apply, hw] at happly
    obtain rfl := Option.some_injective _ happly
    have hnone : lookupAssoc (removeAssoc s.withdrawals oa.withdrawal) oc.withdrawal =
        none := by
      rw [hid]
      exact lookupAssoc_removeAssoc_self s.withdrawals oa.withdrawal hnodup
    have herr : time_lock_complete_withdrawal_evaluator.do_evaluate
        { s with withdrawals := removeAssoc s.withdrawals oa.withdrawal } oc =
        Except.error ChainError.NotFound := by
      simp only [time_lock_complete_withdrawal_evaluator.do_evaluate, hnone]
    refine ⟨herr, ?_⟩
    rw [runOps]
    cases hv : oc.validate with
    | error e => simp only [step, hv]; rfl
    | ok u =>
      cases u
      simp only [step, hv, herr]
      rfl

/-- The pending state after its withdrawal has been aborted. -/
def abortedState : ChainState :=
  { accounts := [0, 1], assets := [7], ledger := [((0, 7), 100)],
    balances := [(0, { owner := 0, amount := ⟨50, 7⟩, review_period_seconds := 5 })],
    withdrawals := [], next_balance_id := 1, next_withdrawal_id := 1,
    head_block_time := 3 }

/-- Witness for C8: aborting pendingState's withdrawal 0 and then
completing 0 yields NotFound and leaves the aborted state unchanged. -/
theorem abort_then_complete_not_found_witness :
    time_lock_complete_withdrawal_evaluator.do_evaluate abortedState pendingCompleteOp =
      Except.error ChainError.NotFound ∧
    runOps abortedState [time_lock_operation.complete_withdrawal pendingCompleteOp] =
      abortedState :=
  abort_then_complete_not_found pendingState pendingAbortOp abortedState
    (by decide) (by rfl) pendingCompleteOp rfl

/-- C9: CompleteWithdrawal resolves the withdrawal's stored balance
reference against the current state, so a deposit made between request
and completion is seen by both the sufficient-funds check and the debit:
a completion that would fail with InsufficientFunds before the deposit
validates after it, and the debit applies to the deposited quantity. -/
theorem complete_reads_current_balance (s : ChainState)
    (od : time_lock_deposit_operation) (oc : time_lock_complete_withdrawal_operation)
    (w : time_lock_withdrawal_object) (b : time_lock_balance_object) (s2 : ChainState)
    (hw : lookupAssoc s.withdrawals oc.withdrawal = some w)
    (hwb : w.balance = od.balance)
    (hb : lookupAssoc s.balances od.balance = some b)
    (happly : time_lock_deposit_evaluator.do_apply s od = some s2)
    (ht : s.head_block_time ≥ w.finalize_date)
    (hact : oc.acting_account = b.owner ∨ oc.acting_account = w.recipient)
    (hrec : oc.recipient = w.recipient)
    (hamt : oc.amount.amount = w.withdrawal)
    (hasset : oc.amount.asset_id = b.amount.asset_id)
    (hshort : b.amount.amount < oc.amount.amount)
    (hcover : oc.amount.amount ≤ b.amount.amount + od.deposit.amount) :
    time_lock_complete_withdrawal_evaluator.do_evaluate s oc =
      Except.error ChainError.InsufficientFunds ∧
    time_lock_complete_withdrawal_evaluator.do_evaluate s2 oc = Except.ok () ∧
    Option.bind (time_lock_complete_withdrawal_evaluator.do_apply s2 oc)
        (fun s3 => lookupAssoc s3.balances od.balance) =
      some { owner := b.owner,
             amount := ⟨b.amount.amount + od.deposit.amount - oc.amount.amount,
                        b.amount.asset_id⟩,
             review_period_seconds := b.review_period_seconds } := by
  have hb' : lookupAssoc s.balances w.balance = some b := by rw [hwb]; exact hb
  refine ⟨?_, ?_, ?_⟩
  · simp only [time_lock_complete_withdrawal_evaluator.do_evaluate, hw, hb']
    rw [if_pos ht, if_neg (not_le.mpr hshort)]
  · simp only [time_lock_deposit_evaluator.do_apply, hb] at happly
    obtain rfl := Option.some_injective _ happly
    have hb2 : lookupAssoc (modifyAssoc s.balances od.balance
        (fun b0 => { b0 with
          amount := { amount := b0.amount.amount + od.deposit.amount,
                      asset_id := b0.amount.asset_id } })) w.balance =
        some { owner := b.owner,
               amount := ⟨b.amount.amount + od.deposit.amount, b.amount.asset_id⟩,
               review_period_seconds := b.review_period_seconds } := by
      rw [hwb, lookupAssoc_modifyAssoc, if_pos rfl, hb]
      rfl
    apply (complete_do_evaluate_ok_iff _ oc).2
    exact ⟨w, _, hw, hb2, ht, hcover, hact, hrec, hamt, hasset⟩
  · simp only [time_lock_deposit_evaluator.do_apply, hb] at happly
    obtain rfl := Option.some_injective _ happly
    have hb2i : lookupAssoc (modifyAssoc s.balances od.balance
        (fun b0 => { b0 with
          amount := { amount := b0.amount.amount + od.deposit.amount,
                      asset_id := b0.amount.asset_id } })) od.balance =
        some { owner := b.owner,
               amount := ⟨b.amount.amount + od.deposit.amount, b.amount.asset_id⟩,
               review_period_seconds := b.review_period_seconds } := by
      rw [lookupAssoc_modifyAssoc, if_pos rfl, hb]
      rfl
    have hb2 : lookupAssoc (modifyAssoc s.balances od.balance
        (fun b0 => { b0 with
          amount := { amount := b0.amount.amount + od.deposit.amount,
                      asset_id := b0.amount.asset_id } })) w.balance =
        some { owner := b.owner,
               amount := ⟨b.amount.amount + od.deposit.amount, b.amount.asset_id⟩,
               review_period_seconds := b.review_period_seconds } := by
      rw [hwb]
      exact hb2i
    simp only [time_lock_complete_withdrawal_evaluator.do_apply, hw, hb2,
      Option.bind]
    rw [hwb, lookupAssoc_modifyAssoc, if_pos rfl, hb2i]
    rfl

/-- A deposit of 40 more units of asset 7 into the oversized-due state's
balance, made by its owner after the withdrawal request. -/
def lateDepositOp : time_lock_deposit_operation :=
  { fee := ⟨1, 7⟩, owner := 0, balance := 0, deposit := ⟨40, 7⟩ }

/-- The oversized-due state after lateDepositOp is applied. -/
def lateDepositState : ChainState :=
  { accounts := [0, 1], assets := [7], ledger := [((0, 7), 60)],
    balances := [(0, { owner := 0, amount := ⟨90, 7⟩, review_period_seconds := 5 })],
    withdrawals := [(0, { balance := 0, withdrawal := 80, recipient := 1,
                          finalize_date := 10 })],
    next_balance_id := 1, next_withdrawal_id := 1, head_block_time := 12 }

/-- Witness for C9: completing the 80-unit withdrawal fails on the
pre-deposit balance of 50, succeeds on the post-deposit balance of 90,
and leaves the balance at 10. -/
theorem complete_reads_current_balance_witness :
    time_lock_complete_withdrawal_evaluator.do_evaluate oversizedDueState
      oversizedCompleteOp = Except.error ChainError.InsufficientFunds ∧
    time_lock_complete_withdrawal_evaluator.do_evaluate lateDepositState
      oversizedCompleteOp = Except.ok () ∧
    Option.bind (time_lock_complete_withdrawal_evaluator.do_apply lateDepositState
        oversizedCompleteOp)
        (fun s3 => lookupAssoc s3.balances lateDepositOp.balance) =
      some { owner := 0, amount := ⟨10, 7⟩, review_period_seconds := 5 } :=
  complete_reads_current_balance oversizedDueState lateDepositOp oversizedCompleteOp
    { balance := 0, withdrawal := 80, recipient := 1, finalize_date := 10 }
    { owner := 0, amount := ⟨50, 7⟩, review_period_seconds := 5 }
    lateDepositState (by rfl) rfl (by rfl) (by rfl) (by decide)
    (by decide) rfl (by decide) rfl (by decide) (by decide)

/-- C2: starting from any state where owner O holds at least q of asset A,
Create with initial deposit q, then RequestWithdrawal of q to recipient R,
then CompleteWithdrawal of q by R once the review period has elapsed, all
validate and apply; the time-lock balance ends at quantity 0, the
completion credits R with exactly q, and when R is a different account
from O, R's ledger balance ends exactly q above its starting value. -/
theorem time_lock_roundtrip (s : ChainState) (O R A : Nat) (q r t : Int)
    (hO : O ∈ s.accounts) (hR : R ∈ s.accounts) (hA : A ∈ s.assets)
    (hq : get_balance s O A ≥ q) (ht : s.head_block_time + r ≤ t) :
    ∃ s1 s2 s3 : ChainState,
      time_lock_create_evaluator.do_evaluate s
        { fee := ⟨1, A⟩, owner := O, initial_deposit := ⟨q, A⟩,
          review_period_seconds := r } = Except.ok () ∧
      time_lock_create_evaluator.do_apply s
        { fee := ⟨1, A⟩, owner := O, initial_deposit := ⟨q, A⟩,
          review_period_seconds := r } = (s.next_balance_id, s1) ∧
      time_lock_withdraw_evaluator.do_evaluate s1
        { fee := ⟨1, A⟩, owner := O, balance := s.next_balance_id,
          withdrawal := ⟨q, A⟩, recipient := R } = Except.ok () ∧
      time_lock_withdraw_evaluator.do_apply s1
        { fee := ⟨1, A⟩, owner := O, balance := s.next_balance_id,
          withdrawal := ⟨q, A⟩, recipient := R } =
        some (s.next_withdrawal_id, s2) ∧
      time_lock_complete_withdrawal_evaluator.do_evaluate
        { s2 with head_block_time := t }
        { fee := ⟨0, A⟩, acting_account := R, recipient := R, amount := ⟨q, A⟩,
          withdrawal := s.next_withdrawal_id } = Except.ok () ∧
      time_lock_complete_withdrawal_evaluator.do_apply
        { s2 with head_block_time := t }
        { fee := ⟨0, A⟩, acting_account := R, recipient := R, amount := ⟨q, A⟩,
          withdrawal := s.next_withdrawal_id } = some s3 ∧
      (∃ b, lookupAssoc s3.balances s.next_balance_id = some b ∧
        b.amount.amount = 0) ∧
      get_balance s3 R A = get_balance s2 R A + q ∧
      (R ≠ O → get_balance s3 R A = get_balance s R A + q) := by
  refine ⟨{ s with
      ledger := adjustAssoc s.ledger (O, A) (-q),
      balances := (s.next_balance_id,
        { owner := O, amount := ⟨q, A⟩, review_period_seconds := r }) :: s.balances,
      next_balance_id := s.next_balance_id + 1 },
    { s with
      ledger := adjustAssoc s.ledger (O, A) (-q),
      balances := (s.next_balance_id,
        { owner := O, amount := ⟨q, A⟩, review_period_seconds := r }) :: s.balances,
      next_balance_id := s.next_balance_id + 1,
      withdrawals := (s.next_withdrawal_id,
        { balance := s.next_balance_id, withdrawal := q, recipient := R,
          finalize_date := s.head_block_time + r }) :: s.withdrawals,
      next_withdrawal_id := s.next_withdrawal_id + 1 },
    { s with
      ledger := adjustAssoc (adjustAssoc s.ledger (O, A) (-q)) (R, A) q,
      balances := modifyAssoc
        ((s.next_balance_id,
          { owner := O, amount := ⟨q, A⟩, review_period_seconds := r }) :: s.balances)
        s.next_balance_id
        (fun b => { b with
          amount := { amount := b.amount.amount - q, asset_id := b.amount.asset_id } }),
      next_balance_id := s.next_balance_id + 1,
      withdrawals := removeAssoc
        ((s.next_withdrawal_id,
          { balance := s.next_balance_id, withdrawal := q, recipient := R,
            finalize_date := s.head_block_time + r }) :: s.withdrawals)
        s.next_withdrawal_id,
      next_withdrawal_id := s.next_withdrawal_id + 1,
      head_block_time := t },
    ?_, ?_, ?_, ?_, ?_, ?_, ?_, ?_, ?_⟩
  · exact (create_do_evaluate_ok_iff s _).2 ⟨hO, hA, hq⟩
  · rfl
  · apply (withdraw_do_evaluate_ok_iff _ _).2
    refine ⟨{ owner := O, amount := ⟨q, A⟩, review_period_seconds := r }, ?_,
      rfl, rfl, hO, hR⟩
    rw [lookupAssoc_cons, if_pos rfl]
  · have hb1 : lookupAssoc ((s.next_balance_id,
        { owner := O, amount := ⟨q, A⟩,
          review_period_seconds := r }) :: s.balances) s.next_balance_id =
        some { owner := O, amount := ⟨q, A⟩, review_period_seconds := r } := by
      rw [lookupAssoc_cons, if_pos rfl]
    simp only [time_lock_withdraw_evaluator.do_apply, hb1]
  · apply (complete_do_evaluate_ok_iff _ _).2
    refine ⟨{ balance := s.next_balance_id, withdrawal := q, recipient := R,
              finalize_date := s.head_block_time + r },
      { owner := O, amount := ⟨q, A⟩, review_period_seconds := r },
      ?_, ?_, ht, le_refl q, Or.inr rfl, rfl, rfl, rfl⟩
    · rw [lookupAssoc_cons, if_pos rfl]
    · rw [lookupAssoc_cons, if_pos rfl]
  · have hw2 : lookupAssoc ((s.next_withdrawal_id,
        { balance := s.next_balance_id, withdrawal := q, recipient := R,
          finalize_date := s.head_block_time + r }) :: s.withdrawals)
        s.next_withdrawal_id =
        some { balance := s.next_balance_id, withdrawal := q, recipient := R,
               finalize_date := s.head_block_time + r } := by
      rw [lookupAssoc_cons, if_pos rfl]
    have hb2 : lookupAssoc ((s.next_balance_id,
        { owner := O, amount := ⟨q, A⟩,
          review_period_seconds := r }) :: s.balances) s.next_balance_id =
        some { owner := O, amount := ⟨q, A⟩, review_period_seconds := r } := by
      rw [lookupAssoc_cons, if_pos rfl]
    simp only [time_lock_complete_withdrawal_evaluator.do_apply, hw2, hb2]
  · refine ⟨{ owner := O, amount := ⟨q - q, A⟩, review_period_seconds := r }, ?_, ?_⟩
    · rw [modifyAssoc, if_pos rfl, lookupAssoc_cons, if_pos rfl]
    · exact sub_self q
  · show (lookupAssoc (adjustAssoc (adjustAssoc s.ledger (O, A) (-q)) (R, A) q)
      (R, A)).getD 0 = _
    rw [lookupAssoc_adjustAssoc, if_pos rfl]
    rfl
  · intro hne
    have hkey : ¬ ((R, A) : Nat × Nat) = (O, A) := by
      intro hcontra
      exact hne (congrArg Prod.fst hcontra)
    show (lookupAssoc (adjustAssoc (adjustAssoc s.ledger (O, A) (-q)) (R, A) q)
      (R, A)).getD 0 = _
    rw [lookupAssoc_adjustAssoc, if_pos rfl, lookupAssoc_adjustAssoc, if_neg hkey]
    rfl

/-- Witness for C2 at baseState: 10 units of asset 7, review period 5,
completion at time 20. -/
theorem time_lock_roundtrip_witness :
    ∃ s1 s2 s3 : ChainState,
      time_lock_create_evaluator.do_evaluate baseState
        { fee := ⟨1, 7⟩, owner := 0, initial_deposit := ⟨10, 7⟩,
          review_period_seconds := 5 } = Except.ok () ∧
      time_lock_create_evaluator.do_apply baseState
        { fee := ⟨1, 7⟩, owner := 0, initial_deposit := ⟨10, 7⟩,
          review_period_seconds := 5 } = (baseState.next_balance_id, s1) ∧
      time_lock_withdraw_evaluator.do_evaluate s1
        { fee := ⟨1, 7⟩, owner := 0, balance := baseState.next_balance_id,
          withdrawal := ⟨10, 7⟩, recipient := 1 } = Except.ok () ∧
      time_lock_withdraw_evaluator.do_apply s1
        { fee := ⟨1, 7⟩, owner := 0, balance := baseState.next_balance_id,
          withdrawal := ⟨10, 7⟩, recipient := 1 } =
        some (baseState.next_withdrawal_id, s2) ∧
      time_lock_complete_withdrawal_evaluator.do_evaluate
        { s2 with head_block_time := 20 }
        { fee := ⟨0, 7⟩, acting_account := 1, recipient := 1, amount := ⟨10, 7⟩,
          withdrawal := baseState.next_withdrawal_id } = Except.ok () ∧
      time_lock_complete_withdrawal_evaluator.do_apply
        { s2 with head_block_time := 20 }
        { fee := ⟨0, 7⟩, acting_account := 1, recipient := 1, amount := ⟨10, 7⟩,
          withdrawal := baseState.next_withdrawal_id } = some s3 ∧
      (∃ b, lookupAssoc s3.balances baseState.next_balance_id = some b ∧
        b.amount.amount = 0) ∧
      get_balance s3 1 7 = get_balance s2 1 7 + 10 ∧
      ((1 : Nat) ≠ 0 → get_balance s3 1 7 = get_balance baseState 1 7 + 10) :=
  time_lock_roundtrip baseState 0 1 7 10 5 20 (by decide) (by decide) (by decide)
    (by decide) (by decide)

/-- Well-formed id allocation: every stored key is below its store's next
fresh id, so a fresh insert never shadows an existing record. -/
def goodIds (s : ChainState) : Prop :=
  (∀ e ∈ s.balances, e.1 < s.next_balance_id) ∧
  (∀ e ∈ s.withdrawals, e.1 < s.next_withdrawal_id)

/-- C5: every accepted operation keeps every stored time-lock balance's
quantity non-negative, and every balance present before the operation is
still present afterwards with the same owner, asset kind and review
period — balances are mutated in quantity only and never deleted. -/
theorem balance_invariants_preserved (s : ChainState) (op : time_lock_operation)
    (s' : ChainState) (hg : goodIds s) (h : step s op = Except.ok s')
    (hnn : ∀ i b, lookupAssoc s.balances i = some b → 0 ≤ b.amount.amount) :
    (∀ i b', lookupAssoc s'.balances i = some b' → 0 ≤ b'.amount.amount) ∧
    (∀ i b, lookupAssoc s.balances i = some b →
      ∃ b', lookupAssoc s'.balances i = some b' ∧
        b'.amount.asset_id = b.amount.asset_id ∧ b'.owner = b.owner ∧
        b'.review_period_seconds = b.review_period_seconds) := by
  cases op with
  | create o =>
    simp only [step] at h
    cases hv : o.validate with
    | error e => rw [hv] at h; simp at h
    | ok u =>
      cases u
      rw [hv] at h
      cases hev : time_lock_create_evaluator.do_evaluate s o with
      | error e => rw [hev] at h; simp at h
      | ok u2 =>
        cases u2
        rw [hev] at h
        simp only [Except.ok.injEq] at h
        subst h
        obtain ⟨hfee, hdep, hrp⟩ := (create_validate_ok_iff o).1 hv
        constructor
        · intro i b' hb'
          simp only [time_lock_create_evaluator.do_apply] at hb'
          rw [lookupAssoc_cons] at hb'
          by_cases hni : s.next_balance_id = i
          · rw [if_pos hni] at hb'
            obtain rfl := Option.some_injective _ hb'
            exact hdep
          · rw [if_neg hni] at hb'
            exact hnn i b' hb'
        · intro i b hb
          have hlt : i < s.next_balance_id := hg.1 (i, b) (lookupAssoc_mem _ _ _ hb)
          have hni : ¬ s.next_balance_id = i := by
            intro hcontra
            rw [hcontra] at hlt
            exact lt_irrefl i hlt
          refine ⟨b, ?_, rfl, rfl, rfl⟩
          simp only [time_lock_create_evaluator.do_apply]
          rw [lookupAssoc_cons, if_neg hni]
          exact hb
  | deposit o =>
    simp only [step] at h
    cases hv : o.validate with
    | error e => rw [hv] at h; simp at h
    | ok u =>
      cases u
      rw [hv] at h
      cases hev : time_lock_deposit_evaluator.do_evaluate s o with
      | error e => rw [hev] at h; simp at h
      | ok u2 =>
        cases u2
        rw [hev] at h
        obtain ⟨hfee, hdeppos⟩ := (deposit_validate_ok_iff o).1 hv
        obtain ⟨b0, hb0, hown0, hasset0, hacct0, hfunds0⟩ :=
          (deposit_do_evaluate_ok_iff s o).1 hev
        rw [time_lock_deposit_evaluator.do_apply, hb0] at h
        simp only [Except.ok.injEq] at h
        subst h
        constructor
        · intro i b' hb'
          simp only at hb'
          rw [lookupAssoc_modifyAssoc] at hb'
          by_cases hio : i = o.balance
          · rw [if_pos hio, hb0] at hb'
            simp only [Option.map] at hb'
            obtain rfl := Option.some_injective _ hb'
            have h0 : 0 ≤ b0.amount.amount := hnn o.balance b0 hb0
            simp only
            linarith
          · rw [if_neg hio] at hb'
            exact hnn i b' hb'
        · intro i b hb
          by_cases hio : i = o.balance
          · subst hio
            obtain rfl : b0 = b := Option.some_injective _ (hb0.symm.trans hb)
            refine ⟨{ b0 with
                amount := { amount := b0.amount.amount + o.deposit.amount,
                            asset_id := b0.amount.asset_id } }, ?_, rfl, rfl, rfl⟩
            simp only
            rw [lookupAssoc_modifyAssoc, if_pos rfl, hb]
            rfl
          · refine ⟨b, ?_, rfl, rfl, rfl⟩
            simp only
            rw [lookupAssoc_modifyAssoc, if_neg hio]
            exact hb
  | withdraw o =>
    simp only [step] at h
    cases hv : o.validate with
    | error e => rw [hv] at h; simp at h
    | ok u =>
      cases u
      rw [hv] at h
      cases hev : time_lock_withdraw_evaluator.do_evaluate s o with
      | error e => rw [hev] at h; simp at h
      | ok u2 =>
        cases u2
        rw [hev] at h
        obtain ⟨b, hb, -, -, -, -⟩ := (withdraw_do_evaluate_ok_iff s o).1 hev
        rw [time_lock_withdraw_evaluator.do_apply, hb] at h
        simp only [Except.ok.injEq] at h
        subst h
        exact ⟨fun i b' hb' => hnn i b' hb', fun i b hb => ⟨b, hb, rfl, rfl, rfl⟩⟩
  | abort_withdrawal o =>
    simp only [step] at h
    cases hv : o.validate with
    | error e => rw [hv] at h; simp at h
    | ok u =>
      cases u
      rw [hv] at h
      cases hev : time_lock_abort_withdrawal_evaluator.do_evaluate s o with
      | error e => rw [hev] at h; simp at h
      | ok u2 =>
        cases u2
        rw [hev] at h
        obtain ⟨w, b, hw, hb, hown⟩ := (abort_do_evaluate_ok_iff s o).1 hev
        rw [time_lock_abort_withdrawal_evaluator.do_apply, hw] at h
        simp only [Except.ok.injEq] at h
        subst h
        exact ⟨fun i b' hb' => hnn i b' hb', fun i b2 hb2 => ⟨b2, hb2, rfl, rfl, rfl⟩⟩
  | complete_withdrawal o =>
    simp only [step] at h
    cases hv : o.validate with
    | error e => rw [hv] at h; simp at h
    | ok u =>
      cases u
      rw [hv] at h
      cases hev : time_lock_complete_withdrawal_evaluator.do_evaluate s o with
      | error e => rw [hev] at h; simp at h
      | ok u2 =>
        cases u2
        rw [hev] at h
        obtain ⟨w, b0, hw, hb0, htime, hfunds, hact, hrec, hamt, hasset⟩ :=
          (complete_do_evaluate_ok_iff s o).1 hev
        simp only [time_lock_complete_withdrawal_evaluator.do_apply, hw, hb0] at h
        simp only [Except.ok.injEq] at h
        subst h
        constructor
        · intro i b' hb'
          simp only at hb'
          rw [lookupAssoc_modifyAssoc] at hb'
          by_cases hio : i = w.balance
          · rw [if_pos hio, hb0] at hb'
            simp only [Option.map] at hb'
            obtain rfl := Option.some_injective _ hb'
            simp only
            linarith
          · rw [if_neg hio] at hb'
            exact hnn i b' hb'
        · intro i b hb
          by_cases hio : i = w.balance
          · subst hio
            obtain rfl : b0 = b := Option.some_injective _ (hb0.symm.trans hb)
            refine ⟨{ b0 with
                amount := { amount := b0.amount.amount - o.amount.amount,
                            asset_id := b0.amount.asset_id } }, ?_, rfl, rfl, rfl⟩
            simp only
            rw [lookupAssoc_modifyAssoc, if_pos rfl, hb]
            rfl
          · refine ⟨b, ?_, rfl, rfl, rfl⟩
            simp only
            rw [lookupAssoc_modifyAssoc, if_neg hio]
            exact hb

/-- A deposit of 25 more units of asset 7 into pendingState's balance. -/
def pendingDepositOp : time_lock_deposit_operation :=
  { fee := ⟨1, 7⟩, owner := 0, balance := 0, deposit := ⟨25, 7⟩ }

/-- The pending state after pendingDepositOp is dispatched. -/
def pendingAfterDeposit : ChainState :=
  { accounts := [0, 1], assets := [7], ledger := [((0, 7), 75)],
    balances := [(0, { owner := 0, amount := ⟨75, 7⟩, review_period_seconds := 5 })],
    withdrawals := [(0, { balance := 0, withdrawal := 20, recipient := 1,
                          finalize_date := 10 })],
    next_balance_id := 1, next_withdrawal_id := 1, head_block_time := 3 }

/-- Witness for C5: after the accepted deposit the stored balance is still
non-negative and balance 0 survives with asset kind 7, owner 0 and review
period 5. -/
theorem balance_invariants_preserved_witness :
    (0 : Int) ≤ ({ owner := 0, amount := ⟨75, 7⟩, review_period_seconds := 5 } :
      time_lock_balance_object).amount.amount ∧
    ∃ b', lookupAssoc pendingAfterDeposit.balances 0 = some b' ∧
      b'.amount.asset_id = 7 ∧ b'.owner = 0 ∧ b'.review_period_seconds = 5 :=
  ⟨(balance_invariants_preserved pendingState
      (time_lock_operation.deposit pendingDepositOp) pendingAfterDeposit
      (by constructor <;> decide) (by rfl)
      (fun i b hb => by
        have h0 : lookupAssoc pendingState.balances i =
            if 0 = i then
              some { owner := 0, amount := ⟨50, 7⟩, review_period_seconds := 5 }
            else none := rfl
        rw [h0] at hb
        by_cases hi : 0 = i
        · rw [if_pos hi] at hb
          obtain rfl := Option.some_injective _ hb
          decide
        · rw [if_neg hi] at hb
          exact Option.noConfusion hb)).1 0
      { owner := 0, amount := ⟨75, 7⟩, review_period_seconds := 5 } (by rfl),
   (balance_invariants_preserved pendingState
      (time_lock_operation.deposit pendingDepositOp) pendingAfterDeposit
      (by constructor <;> decide) (by rfl)
      (fun i b hb => by
        have h0 : lookupAssoc pendingState.balances i =
            if 0 = i then
              some { owner := 0, amount := ⟨50, 7⟩, review_period_seconds := 5 }
            else none := rfl
        rw [h0] at hb
        by_cases hi : 0 = i
        · rw [if_pos hi] at hb
          obtain rfl := Option.some_injective _ hb
          decide
        · rw [if_neg hi] at hb
          exact Option.noConfusion hb)).2 0
      { owner := 0, amount := ⟨50, 7⟩, review_period_seconds := 5 } (by rfl)⟩
